import Mathlib

/-!
Verification of the Discord turn-taking bot (src/bot.py and src/processors/*).

The Python sources are embedded shallowly: the mutable module-level maps
become explicit association lists threaded through the functions, wall-clock
instants become integers counting seconds, and the external collaborators
(Discord client, Anthropic client, Honcho store) become explicit inputs of
the corresponding function, so every path of the original control flow is a
path of the Lean definition.
-/

set_option maxHeartbeats 1000000

namespace DiscordBot

/-! ### Per-channel rate-limit state (bot.py, module level)

The global dict `_rate_timestamps` maps a channel id to the list of response
timestamps. We model the dict as an association list; `setChannel` is dict
assignment and `lookupChannel` is dict lookup. -/

abbrev RateState := List (Nat × List Int)

def lookupChannel (st : RateState) (ch : Nat) : Option (List Int) :=
  (st.find? (fun p => p.1 == ch)).map Prod.snd

def setChannel : RateState → Nat → List Int → RateState
  | [], ch, ts => [(ch, ts)]
  | p :: rest, ch, ts =>
      if p.1 == ch then (ch, ts) :: setChannel rest ch ts
      else p :: setChannel rest ch ts

/-- The in-place prune of bot.py line 149: keep timestamps at most 60 seconds
old at the instant `now`. -/
def pruneWindow (now : Int) (ts : List Int) : List Int :=
  ts.filter (fun t => decide (now - t ≤ 60))

/-- Embedding of `_is_rate_limited_quick` (bot.py lines 135-165): ensure the
channel has an entry, prune it in place, and report whether the pruned count
has reached the per-minute limit.  The presence write on expiry and the log
lines are external effects with no bearing on the returned flag or state. -/
def is_rate_limited_quick (limit : Nat) (st : RateState) (ch : Nat) (now : Int) :
    Bool × RateState :=
  let ts := (lookupChannel st ch).getD []
  let pruned := pruneWindow now ts
  (decide (pruned.length ≥ limit), setChannel st ch pruned)

/-- Embedding of `_record_response_with_timestamp` (bot.py lines 226-232):
append the pre-captured timestamp to the channel window. -/
def record_response_with_timestamp (st : RateState) (ch : Nat) (ts : Int) : RateState :=
  setChannel st ch (((lookupChannel st ch).getD []) ++ [ts])

/-! ### Status cache (status_coordinator.py) -/

/-- `_status_cache`: cache key to (status string, cache time). -/
abbrev StatusCache := List (String × (String × Int))

def cacheGet (c : StatusCache) (k : String) : Option (String × Int) :=
  (c.find? (fun p => p.1 == k)).map Prod.snd

def cacheSet : StatusCache → String → (String × Int) → StatusCache
  | [], k, v => [(k, v)]
  | p :: rest, k, v =>
      if p.1 == k then (k, v) :: cacheSet rest k v
      else p :: cacheSet rest k v

/-- Embedding of `StatusCoordinatorProcessor.check_bot_status` (and the
identical module-level `check_bot_status` in bot_status.py).  The member
resolution `guild.get_member` together with the `member.bot` test and the
surrounding try/except is collapsed into `resolved`: `some status` when the
member is found, is a bot, and the platform call succeeds, `none` when the
member is absent, not a bot, or the platform query raises. -/
def check_bot_status (cacheSeconds : Int) (c : StatusCache) (key : String)
    (now : Int) (resolved : Option String) : String × StatusCache :=
  match cacheGet c key with
  | some (st, t) =>
      if now - t < cacheSeconds then (st, c)
      else
        match resolved with
        | some status => (status, cacheSet c key (status, now))
        | none => ("unknown", c)
  | none =>
      match resolved with
      | some status => (status, cacheSet c key (status, now))
      | none => ("unknown", c)

/-- Embedding of `StatusCoordinatorProcessor.clear_old_cache_entries`
(status_coordinator.py lines 303-316): collect the keys whose entry is older
than twice the cache duration, then delete them; the net effect is a filter. -/
def clear_old_cache_entries (cacheSeconds now : Int) (c : StatusCache) : StatusCache :=
  c.filter (fun e => !(decide (now - e.2.2 > cacheSeconds * 2)))

/-- Embedding of the channel cleanup in `background_status_monitor`
(bot.py lines 116-123): pop the channels whose window is empty or whose
timestamps are all older than 120 seconds. -/
def cleanup_idle_channels (now : Int) (st : RateState) : RateState :=
  st.filter (fun p => !(p.2.isEmpty || p.2.all (fun t => decide (now - t > 120))))

/-- One pass of the background eviction at a fixed instant: the status-cache
clearing of hard-expired entries plus the removal of empty or idle channel
windows. -/
def background_evict (cacheSeconds now : Int) (c : StatusCache) (st : RateState) :
    StatusCache × RateState :=
  (clear_old_cache_entries cacheSeconds now c, cleanup_idle_channels now st)

/-! ### Presence state machine (status_coordinator.py, process) -/

structure CoordState where
  is_rate_limited : Bool
  last_status_change : Option Int
  deriving DecidableEq, Repr

/-- Embedding of the state update of `StatusCoordinatorProcessor.process`
(status_coordinator.py lines 52-100).  `enabled` is the
BOT_STATUS_COORDINATION configuration; `rateLimited` is the
`context.get_data("rate_limited", False)` input.  The Discord presence write
`_update_bot_status` catches its own exceptions, so the in-memory update that
follows it is unconditional. -/
def coordinator_process (enabled : Bool) (rateLimited : Bool) (now : Int)
    (s : CoordState) : CoordState :=
  if enabled = false then s
  else
    let shouldBe :=
      match s.last_status_change with
      | some t =>
          if s.is_rate_limited && decide (now - t > 65) then false else rateLimited
      | none => rateLimited
    if shouldBe != s.is_rate_limited then
      { is_rate_limited := shouldBe, last_status_change := some now }
    else s

/-! ### Addressing analysis (unified_enthusiasm.py, analyze_addressing)

Python lowercasing and substring containment are embedded over the character
lists of the strings. -/

def charLower (c : Char) : Char :=
  if 65 ≤ c.toNat && c.toNat ≤ 90 then Char.ofNat (c.toNat + 32) else c

def strLower (s : String) : String := String.mk (s.data.map charLower)

def charsLead : List Char → List Char → Bool
  | [], _ => true
  | _ :: _, [] => false
  | a :: as, b :: bs => a == b && charsLead as bs

/-- Python substring containment: `sub` occurs contiguously in the second
argument. -/
def charsHave (sub : List Char) : List Char → Bool
  | [] => charsLead sub []
  | c :: rest => charsLead sub (c :: rest) || charsHave sub rest

/-- Python `sub in hay` on strings. -/
def strHas (hay sub : String) : Bool := charsHave sub.data hay.data

/-- The inputs that `_analyze_addressing` reads from the MessageContext and
the Discord entity listing: message content, the ids in `message.mentions`,
the `mention_everyone` flag, the bot id and configured name, and the display
names of the human entities. -/
structure AddressingInput where
  content : String
  mentioned_users : List Nat
  mention_everyone : Bool
  bot_id : Nat
  bot_name : String
  humans : List String
  deriving Repr

/-- `MessageContext.is_mentioned`, i.e. `bot.user.mentioned_in(message)`
(base_processor.py line 33): true when the message mentions everyone or the
bot id is among the mentioned users. -/
def is_mentioned (inp : AddressingInput) : Bool :=
  inp.mention_everyone || inp.mentioned_users.contains inp.bot_id

/-- Embedding of `UnifiedEnthusiasmProcessor._analyze_addressing`
(unified_enthusiasm.py lines 500-529), returning the
`who_is_directly_addressed` field. -/
def analyze_addressing (inp : AddressingInput) : String :=
  let contentLower := strLower inp.content
  let botNameLower := strLower inp.bot_name
  if is_mentioned inp then
    if inp.mentioned_users.any (fun u => u == inp.bot_id) then "me"
    else "someone_else"
  else if strHas contentLower botNameLower then "me"
  else if inp.humans.any (fun h => strHas contentLower (strLower h)) then "someone_else"
  else "nobody"

/-! ### Conversation flow analysis (unified_enthusiasm.py, lines 452-498) -/

structure FlowMsg where
  author : String
  timestamp : String
  deriving DecidableEq, Repr

structure FlowResult where
  last_bot_message_idx : Int
  messages_since_last_bot : Int
  active_conversation : Bool
  deriving DecidableEq, Repr

/-- The `for i, msg in enumerate(reversed(recent_messages))` scan: walk the
reversed window and translate the first hit back to an oldest-first index. -/
def lastBotIdxAux (botUser : String) (len : Nat) : List FlowMsg → Nat → Int
  | [], _ => -1
  | m :: rest, i =>
      if m.author == botUser then (len : Int) - 1 - (i : Int)
      else lastBotIdxAux botUser len rest (i + 1)

def last_bot_message_idx_of (botUser : String) (msgs : List FlowMsg) : Int :=
  lastBotIdxAux botUser msgs.length msgs.reverse 0

/-- Embedding of `_analyze_conversation_flow` on an oldest-first window that
already excludes the triggering message.  The `time_since_last_bot` field is
derived from the external datetime parser and is not needed by any claim, so
it is omitted from the result record. -/
def analyze_conversation_flow (botUser : String) (msgs : List FlowMsg) : FlowResult :=
  if msgs.isEmpty then
    { last_bot_message_idx := -1, messages_since_last_bot := 0, active_conversation := false }
  else
    let idx := last_bot_message_idx_of botUser msgs
    let recentAuthors := (msgs.map FlowMsg.author).drop (msgs.length - 3)
    { last_bot_message_idx := idx
      messages_since_last_bot :=
        if idx ≥ 0 then (msgs.length : Int) - idx - 1 else (msgs.length : Int)
      active_conversation :=
        decide (recentAuthors.dedup.length ≤ 2) && decide (recentAuthors.length ≥ 2) }

/-! ### Unified enthusiasm decision (unified_enthusiasm.py, process)

The returned Python dicts are modelled as association lists over a small
value type, so that the presence or absence of a key is part of the model. -/

inductive Val where
  | b : Bool → Val
  | n : Nat → Val
  | s : String → Val
  | l : List String → Val
  deriving DecidableEq, Repr

abbrev Dict := List (String × Val)

def dget (d : Dict) (k : String) : Option Val :=
  (d.find? (fun p => p.1 == k)).map Prod.snd

/-- Python `dict.get(key, default)`. -/
def dgetD (d : Dict) (k : String) (dflt : Val) : Val := (dget d k).getD dflt

/-- Python truthiness of the modelled values. -/
def Val.truthy : Val → Bool
  | .b x => x
  | .n x => x != 0
  | .s x => x != ""
  | .l x => !x.isEmpty

/-- The parsed LLM reply produced by `_parse_llm_response`: a reasoning
string, a score already clamped to 0..9, the topic-change flag and the
activity list. -/
structure ParsedResult where
  reasoning : String
  score : Nat
  topic_change : Bool
  activities : List String
  deriving DecidableEq, Repr

/-- The dict returned by the catch-all handler of
`UnifiedEnthusiasmProcessor.process` (unified_enthusiasm.py line 184) when
any step raises: fail-open with the fixed score 8 and the error text in the
reasoning. -/
def ue_fallback (errMsg : String) : Dict :=
  [("should_skip", Val.b false), ("enthusiasm_score", Val.n 8),
   ("reasoning", Val.s ("Error: " ++ errMsg)), ("topic_change", Val.b false)]

/-- The dict returned on the success path (unified_enthusiasm.py lines
169-179), restricted to the keys of the modelled value type; the remaining
keys (`bot_context`, `other_bot_statuses`) carry the collaborator payloads
gathered earlier and play no part in the decision. -/
def ue_success (threshold : Nat) (verbosePrefix : String) (p : ParsedResult) : Dict :=
  let shouldRespond := decide (p.score ≥ threshold)
  [("should_skip", Val.b (!shouldRespond)),
   ("enthusiasm_score", Val.n p.score),
   ("reasoning", Val.s p.reasoning),
   ("topic_change", Val.b p.topic_change),
   ("activities", Val.l p.activities),
   ("verbose_prefix", Val.s verbosePrefix),
   ("decision", Val.s (if shouldRespond then "RESPOND" else "SKIP"))]

/-- Embedding of `UnifiedEnthusiasmProcessor.process` (unified_enthusiasm.py
lines 119-184).  The fallible collaborator steps are explicit inputs:
`validationOk` is the outcome of `_basic_validation`, `gatherStep` stands for
the context-gathering steps (error value = the str of an exception raised
there), `llmCall` is the Anthropic call inside `_call_unified_llm` (error
value = the str of the client exception, which `_call_unified_llm` wraps in a
ProcessorError before it reaches the catch-all), and `parse` is
`_parse_llm_response`, which never raises. -/
def unified_process (threshold : Nat) (validationOk : Bool)
    (gatherStep : Except String Unit) (llmCall : Except String String)
    (parse : String → ParsedResult) (verbosePrefix : String) : Dict :=
  if validationOk = false then
    [("should_skip", Val.b true), ("reason", Val.s "basic_validation_failed")]
  else
    match gatherStep with
    | .error e => ue_fallback e
    | .ok _ =>
        match llmCall with
        | .error e => ue_fallback ("[unified_enthusiasm] Error calling LLM: " ++ e)
        | .ok resp => ue_success threshold verbosePrefix (parse resp)

/-! ### Processor pipeline and message handler (base_processor.py, bot.py) -/

/-- What a single processor invocation can do, seen from
`ProcessorPipeline.process`: return a dict, raise a ProcessorError, or raise
any other exception. -/
inductive ProcOutcome where
  | ok : Dict → ProcOutcome
  | procError : String → ProcOutcome
  | unexpected : String → ProcOutcome

/-- The per-processor error handling of `ProcessorPipeline.process`
(base_processor.py lines 145-158): an exception is converted into a dict
holding only an "error" key. -/
def pipeline_store : ProcOutcome → Dict
  | .ok d => d
  | .procError msg => [("error", Val.s msg)]
  | .unexpected msg => [("error", Val.s ("Unexpected error: " ++ msg))]

/-- `ProcessorPipeline.process` for the deployed pipeline, which holds the
single unified_enthusiasm processor (bot.py line 54). -/
def pipeline_process (outcome : ProcOutcome) : List (String × Dict) :=
  [("unified_enthusiasm", pipeline_store outcome)]

/-- `results.get(name, {})` in on_message. -/
def results_get (rs : List (String × Dict)) (name : String) : Dict :=
  ((rs.find? (fun p => p.1 == name)).map Prod.snd).getD []

inductive HandlerAction where
  | skipRateLimited
  | skipMessage
  | respond : Int → HandlerAction
  deriving DecidableEq, Repr

/-- Embedding of `on_message` (bot.py lines 236-298) up to the point where a
response is generated: the quick rate check, the pre-captured timestamp
`tempTs`, the pipeline run, the `should_skip` read with default False, and
the timestamp commit before responding. -/
def on_message_run (limit : Nat) (st : RateState) (ch : Nat) (now tempTs : Int)
    (outcome : ProcOutcome) : HandlerAction × RateState :=
  let check := is_rate_limited_quick limit st ch now
  if check.1 then (.skipRateLimited, check.2)
  else
    let unified := results_get (pipeline_process outcome) "unified_enthusiasm"
    if (dgetD unified "should_skip" (Val.b false)).truthy then (.skipMessage, check.2)
    else (.respond tempTs, record_response_with_timestamp check.2 ch tempTs)

/-! ### Background monitor loop (bot.py, background_status_monitor)

The loop body is summarised per iteration: it either completes, raises an
exception that escapes the body, or is cancelled inside `asyncio.sleep`.
The single try/except wraps the whole `while True`, so the run function
consumes outcomes until the first non-ok one. -/

inductive IterOutcome where
  | ok
  | err : String → IterOutcome
  | cancelled
  deriving DecidableEq, Repr

inductive LoopExit where
  | running
  | cancelledExit
  | fatalError : String → LoopExit
  deriving DecidableEq, Repr

/-- Run of `background_status_monitor` against a trace of iteration
outcomes: returns how many iterations were entered and how the loop ended
(`running` meaning the trace was exhausted with the loop still alive).  An
iteration that raises is caught by the except clause around the loop, logged,
and the coroutine returns; a cancellation is caught by the CancelledError
clause, logged, and the coroutine returns. -/
def background_status_monitor_run : List IterOutcome → Nat × LoopExit
  | [] => (0, .running)
  | .ok :: rest =>
      let r := background_status_monitor_run rest
      (r.1 + 1, r.2)
  | .err m :: _ => (1, .fatalError m)
  | .cancelled :: _ => (1, .cancelledExit)

/-! ### Concrete inputs reused by counterexamples and witnesses -/

/-- The literal instance of the spec: message mentioning peer A (id 1001)
while the self name appears as plain text; the bot (id 42) is not mentioned
and @everyone is absent. -/
def addressingLiteralInput : AddressingInput :=
  { content := "hey @A, forget Assistant for a sec"
    mentioned_users := [1001]
    mention_everyone := false
    bot_id := 42
    bot_name := "Assistant"
    humans := ["A"] }

/-- A five-message window, oldest first, with the self-authored message at
index 2: the two messages before it and the two after it. -/
def flowWindowPre : List FlowMsg :=
  [{ author := "alice", timestamp := "t0" }, { author := "bob", timestamp := "t1" }]

def flowWindowSelf : FlowMsg := { author := "SymBot#0001", timestamp := "t2" }

def flowWindowPost : List FlowMsg :=
  [{ author := "alice", timestamp := "t3" }, { author := "bob", timestamp := "t4" }]

/-! ### Helper lemmas -/

theorem lookupChannel_setChannel_self (st : RateState) (ch : Nat) (ts : List Int) :
    lookupChannel (setChannel st ch ts) ch = some ts := by
  induction st with
  | nil => simp [setChannel, lookupChannel, List.find?]
  | cons p rest ih =>
      by_cases h : p.1 = ch
      · simp [setChannel, h, lookupChannel, List.find?]
      · have hb : (p.1 == ch) = false := beq_false_of_ne h
        simp only [setChannel, hb, if_neg, Bool.false_eq_true, ite_false]
        simpa [lookupChannel, List.find?, hb] using ih

theorem filter_self_idem {α : Type} (p : α → Bool) (l : List α) :
    (l.filter p).filter p = l.filter p := by
  induction l with
  | nil => rfl
  | cons a l ih =>
      by_cases h : p a = true
      · simp [List.filter_cons, h, ih]
      · simp [List.filter_cons, h, ih]

theorem charsLead_self (l : List Char) : charsLead l l = true := by
  induction l with
  | nil => rfl
  | cons a as ih => simp [charsLead, ih]

theorem charsHave_append_self (sub : List Char) :
    ∀ hay : List Char, charsHave sub (hay ++ sub) = true := by
  intro hay
  induction hay with
  | nil =>
      cases sub with
      | nil => rfl
      | cons c cs => simp [charsHave, charsLead_self]
  | cons x xs ih => simp [charsHave, ih]

theorem strHas_append_right (a e : String) : strHas (a ++ e) e = true := by
  cases a with
  | mk la =>
      cases e with
      | mk le => exact charsHave_append_self le la

theorem lastBotIdxAux_all_ne (botUser : String) (len : Nat) (l : List FlowMsg)
    (h : ∀ m ∈ l, m.author ≠ botUser) :
    ∀ i : Nat, lastBotIdxAux botUser len l i = -1 := by
  induction l with
  | nil => intro i; rfl
  | cons m rest ih =>
      intro i
      have hm : (m.author == botUser) = false :=
        beq_false_of_ne (h m (List.mem_cons_self m rest))
      have hrest : ∀ x ∈ rest, x.author ≠ botUser := fun x hx =>
        h x (List.mem_cons_of_mem m hx)
      simp [lastBotIdxAux, hm, ih hrest]

theorem lastBotIdxAux_found (botUser : String) (len : Nat) (l1 : List FlowMsg)
    (m : FlowMsg) (l2 : List FlowMsg) (hm : m.author = botUser)
    (h1 : ∀ x ∈ l1, x.author ≠ botUser) :
    ∀ i : Nat, lastBotIdxAux botUser len (l1 ++ m :: l2) i
      = (len : Int) - 1 - ((i : Int) + (l1.length : Int)) := by
  induction l1 with
  | nil =>
      intro i
      have hb : (m.author == botUser) = true := beq_iff_eq.mpr hm
      simp [lastBotIdxAux, hb]
  | cons x xs ih =>
      intro i
      have hx : (x.author == botUser) = false :=
        beq_false_of_ne (h1 x (List.mem_cons_self x xs))
      have hxs : ∀ y ∈ xs, y.author ≠ botUser := fun y hy =>
        h1 y (List.mem_cons_of_mem x hy)
      have := ih hxs (i + 1)
      simp only [List.cons_append, lastBotIdxAux, hx, Bool.false_eq_true, ite_false,
        List.append_eq]
      rw [this]
      simp only [List.length_cons]
      push_cast
      ring

/-! ### Claim theorems -/

/-- C2: for every channel, the admission check prunes the channel window to
the timestamps within the trailing 60-second window and reports
allowed = (pruned count < limit); the stored window afterwards is exactly the
pruned sequence, which is a sublist of the old window, so the check never
appends the current time or any other timestamp. -/
theorem admission_check_is_readonly (limit : Nat) (st : RateState) (ch : Nat) (now : Int) :
    ((is_rate_limited_quick limit st ch now).1 = false ↔
        (pruneWindow now ((lookupChannel st ch).getD [])).length < limit) ∧
    lookupChannel (is_rate_limited_quick limit st ch now).2 ch =
        some (pruneWindow now ((lookupChannel st ch).getD [])) ∧
    ((lookupChannel (is_rate_limited_quick limit st ch now).2 ch).getD []).Sublist
        ((lookupChannel st ch).getD []) := by
  refine ⟨?_, ?_, ?_⟩
  · simp [is_rate_limited_quick, decide_eq_false_iff_not, Nat.not_le]
  · simp [is_rate_limited_quick, lookupChannel_setChannel_self]
  · simp only [is_rate_limited_quick, lookupChannel_setChannel_self, Option.getD_some]
    exact List.filter_sublist _

/-- C7: the background eviction (clearing hard-expired status-cache entries
and removing empty or idle channel windows) at a fixed instant is idempotent:
a second run on the result of the first changes nothing. -/
theorem background_evict_idempotent (cacheSeconds now : Int)
    (c : StatusCache) (st : RateState) :
    background_evict cacheSeconds now (background_evict cacheSeconds now c st).1
        (background_evict cacheSeconds now c st).2 =
      background_evict cacheSeconds now c st := by
  simp only [background_evict, clear_old_cache_entries, cleanup_idle_channels]
  rw [filter_self_idem, filter_self_idem]

/-- C3: whenever the status coordinator is Busy (rate limited) and the
current reconciliation call happens strictly more than 65 seconds after the
last status change, the state flips to Available and the change time is set
to now, whatever the rateLimited input of the call is; so the first
reconciliation call past the 65-second threshold recovers the state. -/
theorem busy_watchdog_recovers (rateLimited : Bool) (now t : Int)
    (h : now - t > 65) :
    coordinator_process true rateLimited now
        { is_rate_limited := true, last_status_change := some t } =
      { is_rate_limited := false, last_status_change := some now } := by
  have hd : decide (now - t > 65) = true := decide_eq_true h
  simp [coordinator_process, hd]

theorem busy_watchdog_recovers_witness :
    coordinator_process true true 100
        { is_rate_limited := true, last_status_change := some 0 } =
      { is_rate_limited := false, last_status_change := some 100 } :=
  busy_watchdog_recovers true 100 0 (by decide)

/-- C1 counterexample: on the literal instance of the spec (message
"hey @A, forget Assistant for a sec" mentioning only peer A, with self name
"Assistant" in the plain text and the bot itself not mentioned), the
addressing analysis returns "me", not "someone_else": because the bot is not
@-mentioned, `is_mentioned` is false, the mention branch is not entered at
all, and the plain-text self-name check fires first. -/
theorem addressing_precedence_counterexample :
    analyze_addressing addressingLiteralInput = "me" ∧
    analyze_addressing addressingLiteralInput ≠ "someone_else" := by
  have h : analyze_addressing addressingLiteralInput = "me" := rfl
  refine ⟨h, ?_⟩
  rw [h]
  decide

/-- C1 amended: when the current message does not @-mention the bot itself
(no @everyone and the bot id absent from the mentioned users) while the
bot's own name appears as plain text in the content, the addressing analysis
returns "me" regardless of which other peers are @-mentioned: the plain-text
self-name match takes precedence over an explicit mention of another peer,
because the mention branch is only entered when the bot itself triggered
`is_mentioned`. -/
theorem addressing_plaintext_self_beats_peer_mention (inp : AddressingInput)
    (h1 : inp.mention_everyone = false)
    (h2 : inp.mentioned_users.contains inp.bot_id = false)
    (h3 : strHas (strLower inp.content) (strLower inp.bot_name) = true) :
    analyze_addressing inp = "me" := by
  simp [analyze_addressing, is_mentioned, h1, h2, h3]

theorem addressing_plaintext_self_beats_peer_mention_witness :
    analyze_addressing addressingLiteralInput = "me" :=
  addressing_plaintext_self_beats_peer_mention addressingLiteralInput rfl
    (by decide) (by decide)

/-- C6: the flow analysis sets messages_since_last_bot to the full window
length when no message of the window is self-authored, and to the number of
messages strictly newer than the most recent self-authored message otherwise
(the window being oldest first, the messages after the last self message). -/
theorem flow_messages_since_self_spoke (botUser : String) :
    (∀ msgs : List FlowMsg, (∀ x ∈ msgs, x.author ≠ botUser) →
        (analyze_conversation_flow botUser msgs).messages_since_last_bot
          = (msgs.length : Int)) ∧
    (∀ (pre post : List FlowMsg) (m : FlowMsg), m.author = botUser →
        (∀ x ∈ post, x.author ≠ botUser) →
        (analyze_conversation_flow botUser (pre ++ m :: post)).messages_since_last_bot
          = (post.length : Int)) := by
  constructor
  · intro msgs hne
    cases msgs with
    | nil => rfl
    | cons x xs =>
        have hrev : ∀ y ∈ (x :: xs).reverse, y.author ≠ botUser := by
          intro y hy
          exact hne y (List.mem_reverse.mp hy)
        have hidx : last_bot_message_idx_of botUser (x :: xs) = -1 := by
          unfold last_bot_message_idx_of
          exact lastBotIdxAux_all_ne botUser (x :: xs).length (x :: xs).reverse hrev 0
        simp [analyze_conversation_flow, hidx]
  · intro pre post m hm hpost
    have hrevpost : ∀ y ∈ post.reverse, y.author ≠ botUser := by
      intro y hy
      exact hpost y (List.mem_reverse.mp hy)
    have hrev : (pre ++ m :: post).reverse = post.reverse ++ m :: pre.reverse := by
      simp
    have hidx : last_bot_message_idx_of botUser (pre ++ m :: post)
        = ((pre ++ m :: post).length : Int) - 1 - (post.length : Int) := by
      unfold last_bot_message_idx_of
      rw [hrev]
      have := lastBotIdxAux_found botUser (pre ++ m :: post).length post.reverse
        m pre.reverse hm hrevpost 0
      rw [this]
      simp
    have hlen : (pre ++ m :: post).length = pre.length + post.length + 1 := by
      simp [List.length_append]
      omega
    have hempty : (pre ++ m :: post).isEmpty = false := by
      simp [List.isEmpty_iff]
    simp only [analyze_conversation_flow, hempty, Bool.false_eq_true, ite_false,
      hidx, hlen]
    rw [if_pos (by push_cast; omega)]
    push_cast
    ring

theorem flow_messages_since_self_spoke_witness :
    (analyze_conversation_flow "SymBot#0001"
        (flowWindowPre ++ flowWindowSelf :: flowWindowPost)).messages_since_last_bot
      = 2 := by
  have h := (flow_messages_since_self_spoke "SymBot#0001").2 flowWindowPre
    flowWindowPost flowWindowSelf rfl (by decide)
  simpa using h

/-- C4: when the oracle call raises (the Anthropic client throws, wrapped in
a ProcessorError by the LLM step), and likewise when any earlier
context-gathering step raises, the catch-all of process returns the
fail-open dict: should_skip is false (so the message gets a response), the
score is the fixed value 8, and the reasoning string contains the error
description; an oracle failure is never turned into a skip. -/
theorem oracle_failure_fails_open (threshold : Nat) (parse : String → ParsedResult)
    (verbosePrefix : String) (e g : String) :
    (dget (unified_process threshold true (.ok ()) (.error e) parse verbosePrefix)
        "should_skip" = some (Val.b false) ∧
      dget (unified_process threshold true (.ok ()) (.error e) parse verbosePrefix)
        "enthusiasm_score" = some (Val.n 8) ∧
      dget (unified_process threshold true (.ok ()) (.error e) parse verbosePrefix)
        "reasoning"
        = some (Val.s ("Error: [unified_enthusiasm] Error calling LLM: " ++ e)) ∧
      strHas ("Error: [unified_enthusiasm] Error calling LLM: " ++ e) e = true) ∧
    (∀ llmCall : Except String String,
      dget (unified_process threshold true (.error g) llmCall parse verbosePrefix)
        "should_skip" = some (Val.b false) ∧
      dget (unified_process threshold true (.error g) llmCall parse verbosePrefix)
        "reasoning" = some (Val.s ("Error: " ++ g)) ∧
      strHas ("Error: " ++ g) g = true) := by
  refine ⟨⟨rfl, rfl, rfl, ?_⟩, ?_⟩
  · have := strHas_append_right ("Error: [unified_enthusiasm] Error calling LLM: ") e
    simpa using this
  · intro llmCall
    refine ⟨rfl, rfl, ?_⟩
    have := strHas_append_right "Error: " g
    simpa using this

/-- C5: on the success path the decision is exactly the inclusive threshold
comparison: should_skip is true iff the parsed score is strictly below the
threshold, and false iff the score is at least the threshold, so a score
equal to the threshold responds. -/
theorem threshold_is_inclusive (threshold : Nat) (p : ParsedResult)
    (resp verbosePrefix : String) :
    (dget (unified_process threshold true (.ok ()) (.ok resp)
        (fun _ => p) verbosePrefix) "should_skip"
      = some (Val.b true) ↔ p.score < threshold) ∧
    (dget (unified_process threshold true (.ok ()) (.ok resp)
        (fun _ => p) verbosePrefix) "should_skip"
      = some (Val.b false) ↔ threshold ≤ p.score) := by
  have hs : dget (unified_process threshold true (.ok ()) (.ok resp)
      (fun _ => p) verbosePrefix) "should_skip"
      = some (Val.b (decide (p.score < threshold))) := by
    by_cases h : threshold ≤ p.score
    · simp [unified_process, ue_success, dget, List.find?, h, Nat.not_lt.mpr h]
    · simp [unified_process, ue_success, dget, List.find?, h, Nat.lt_of_not_le h]
  rw [hs]
  constructor
  · simp
  · simp [Nat.not_lt]

/-- C8: when the peer-status lookup misses the cache (no entry, or an entry
at least cacheSeconds old) and the peer cannot be resolved (member absent,
not a bot, or the platform query raised), the lookup returns "unknown" and
leaves the cache exactly unchanged; consequently a later lookup for the same
key, still missing the cache, re-queries the platform and returns and caches
the fresh platform answer instead of serving a cached "unknown". -/
theorem unknown_status_not_cached (cacheSeconds : Int) (c : StatusCache)
    (key : String) (now : Int)
    (hmiss : ∀ st t, cacheGet c key = some (st, t) → cacheSeconds ≤ now - t) :
    check_bot_status cacheSeconds c key now none = ("unknown", c) ∧
    ∀ (now2 : Int) (s : String),
      (∀ st t, cacheGet c key = some (st, t) → cacheSeconds ≤ now2 - t) →
      check_bot_status cacheSeconds c key now2 (some s)
        = (s, cacheSet c key (s, now2)) := by
  constructor
  · cases hc : cacheGet c key with
    | none => simp [check_bot_status, hc]
    | some v =>
        obtain ⟨st, t⟩ := v
        have hle := hmiss st t hc
        simp only [check_bot_status, hc]
        rw [if_neg (by omega)]
  · intro now2 s hmiss2
    cases hc : cacheGet c key with
    | none => simp [check_bot_status, hc]
    | some v =>
        obtain ⟨st, t⟩ := v
        have hle := hmiss2 st t hc
        simp only [check_bot_status, hc]
        rw [if_neg (by omega)]

theorem unknown_status_not_cached_witness :
    check_bot_status 30 [("g1_b2", ("online", 0))] "g1_b2" 40 none
        = ("unknown", [("g1_b2", ("online", 0))]) ∧
    check_bot_status 30 [("g1_b2", ("online", 0))] "g1_b2" 50 (some "idle")
        = ("idle", cacheSet [("g1_b2", ("online", 0))] "g1_b2" ("idle", 50)) := by
  have h := unknown_status_not_cached 30 [("g1_b2", ("online", 0))] "g1_b2" 40
    (by
      intro st t hc
      have hst : st = "online" ∧ t = 0 := by
        have : some (("online" : String), (0 : Int)) = some (st, t) := by
          exact (rfl : cacheGet [("g1_b2", ("online", 0))] "g1_b2"
            = some ("online", 0)).symm.trans hc
        cases this
        exact ⟨rfl, rfl⟩
      omega)
  refine ⟨h.1, ?_⟩
  refine h.2 50 "idle" ?_
  intro st t hc
  have : some (("online" : String), (0 : Int)) = some (st, t) := by
    exact (rfl : cacheGet [("g1_b2", ("online", 0))] "g1_b2"
      = some ("online", 0)).symm.trans hc
  cases this
  omega

/-- C9 counterexample: with a trace whose first sweep iteration raises and
whose second iteration would complete, the background monitor enters only
one iteration and ends with the fatal-error exit, not the cancellation exit:
the try/except of background_status_monitor wraps the whole while loop, so an
error in one iteration terminates the loop instead of proceeding to the next
iteration. -/
theorem sweeper_error_stops_loop_counterexample :
    background_status_monitor_run [.err "boom", .ok] = (1, .fatalError "boom") ∧
    (1, LoopExit.fatalError "boom") ≠ ((2 : Nat), LoopExit.running) ∧
    LoopExit.fatalError "boom" ≠ LoopExit.cancelledExit := by
  refine ⟨rfl, by decide, by decide⟩

/-- C9 amended: an error raised during a sweep iteration is caught by the
except clause around the loop, logged, and ends the loop gracefully: after
any number of completed iterations, the first iteration that raises is the
last one entered, and the iterations after it never run; the loop otherwise
ends only on cancellation or keeps running. -/
theorem sweeper_error_ends_loop (pre : List IterOutcome) (m : String)
    (rest : List IterOutcome) (hpre : ∀ x ∈ pre, x = IterOutcome.ok) :
    background_status_monitor_run (pre ++ .err m :: rest)
      = (pre.length + 1, .fatalError m) := by
  induction pre with
  | nil => rfl
  | cons x xs ih =>
      have hx : x = IterOutcome.ok := hpre x (List.mem_cons_self x xs)
      have hxs : ∀ y ∈ xs, y = IterOutcome.ok := fun y hy =>
        hpre y (List.mem_cons_of_mem x hy)
      subst hx
      simp only [List.cons_append, List.append_eq, background_status_monitor_run,
        ih hxs, List.length_cons]

theorem sweeper_error_ends_loop_witness :
    background_status_monitor_run [.ok, .ok, .err "api down"]
      = (3, .fatalError "api down") := by
  have h := sweeper_error_ends_loop [IterOutcome.ok, IterOutcome.ok] "api down" []
    (by decide)
  simpa using h

/-- C10: if the unified enthusiasm processor raises an exception that escapes
to the pipeline runner (as a ProcessorError or as any other exception), the
pipeline records a dict holding only an "error" key and no "should_skip"
key; on_message then reads should_skip with default False, commits the
pre-captured rate-limit timestamp, and proceeds to generate a response - a
processor-level failure is fail-open at the top level, never a silent skip. -/
theorem processor_exception_fails_open (limit : Nat) (st : RateState) (ch : Nat)
    (now tempTs : Int) (msg : String)
    (hfree : (is_rate_limited_quick limit st ch now).1 = false) :
    dget (results_get (pipeline_process (.procError msg)) "unified_enthusiasm")
        "should_skip" = none ∧
    dget (results_get (pipeline_process (.unexpected msg)) "unified_enthusiasm")
        "should_skip" = none ∧
    dget (results_get (pipeline_process (.unexpected msg)) "unified_enthusiasm")
        "error" = some (Val.s ("Unexpected error: " ++ msg)) ∧
    on_message_run limit st ch now tempTs (.procError msg)
      = (.respond tempTs,
         record_response_with_timestamp (is_rate_limited_quick limit st ch now).2
           ch tempTs) ∧
    on_message_run limit st ch now tempTs (.unexpected msg)
      = (.respond tempTs,
         record_response_with_timestamp (is_rate_limited_quick limit st ch now).2
           ch tempTs) := by
  refine ⟨rfl, rfl, rfl, ?_, ?_⟩
  · simp [on_message_run, hfree, results_get, pipeline_process, pipeline_store,
      dgetD, dget, Val.truthy]
  · simp [on_message_run, hfree, results_get, pipeline_process, pipeline_store,
      dgetD, dget, Val.truthy]

theorem processor_exception_fails_open_witness :
    dget (results_get (pipeline_process (.procError "bad state")) "unified_enthusiasm")
        "should_skip" = none ∧
    on_message_run 10 [] 7 1000 999 (.unexpected "bad state")
      = (.respond 999,
         record_response_with_timestamp (is_rate_limited_quick 10 [] 7 1000).2 7 999) := by
  have h := processor_exception_fails_open 10 [] 7 1000 999 "bad state" (by decide)
  exact ⟨h.1, h.2.2.2.2⟩

end DiscordBot
